import Mathlib

set_option maxHeartbeats 1000000
set_option maxRecDepth 16384

/-!
Verification development for the SolDexLogs log-ingestion pipeline
(`src/main.py`). The definitions below are a shallow embedding of the
class `SolDexLogs`: pure Lean functions for the pure parts, explicit
state passing for the file store and the run loop, and `Except` for
Python exceptions. Machine details that the claims depend on — the
CPython lenient base64 decoder, `str.split`, `str.strip`, the compiled
regular expression, dict construction and lookup — are translated from
the behavior of the CPython 3 standard library that the source calls.
-/

namespace SolDexLogs

/-- JSON-like values, the shape of `json.loads` output. Numbers are modelled
as integers (no float arises in any claim); object fields are an association
list read with last-write-wins lookup, matching how a Python dict built left
to right treats a duplicate key. -/
inductive Json where
  | null : Json
  | bool (b : Bool) : Json
  | num (n : Int) : Json
  | str (s : String) : Json
  | arr (xs : List Json) : Json
  | obj (fields : List (String × Json)) : Json

/-- Python whitespace for `str.strip()`, restricted to the ASCII range (the
Unicode space characters that `strip` also removes do not arise here). -/
def isPySpace (c : Char) : Bool :=
  c = ' ' || c = '\t' || c = '\n' || c = '\r' || c = '\x0b' || c = '\x0c'

/-- Python `s.strip()`: drop leading and trailing whitespace. -/
def pyStrip (s : String) : String :=
  ⟨((s.data.dropWhile isPySpace).reverse.dropWhile isPySpace).reverse⟩

/-- The payload marker literal `Program data:` as a character list. -/
def pdataPre : List Char := "Program data:".data

/-- Helper for `s.split("Program data:")[-1]`: scan left to right; each time
the separator is a prefix of the rest, remember what follows it as the
current answer and continue the scan past the separator. The counter `skip`
is the number of characters still inside the most recently matched separator
— Python matches are non-overlapping — and `acc` is the answer so far,
initially the whole string, for the case of no occurrence at all. -/
def afterLastPD : List Char → Nat → List Char → List Char
  | [], _, acc => acc
  | _ :: cs, skip + 1, acc => afterLastPD cs skip acc
  | c :: cs, 0, acc =>
    if pdataPre.isPrefixOf (c :: cs) then afterLastPD cs 12 (cs.drop 12)
    else afterLastPD cs 0 acc

/-- Python `log.split("Program data:")[-1]`: the remainder of the string
after the last of the non-overlapping left-to-right occurrences of the
separator, or the whole string when the separator does not occur. -/
def pySplitTail (s : String) : String := ⟨afterLastPD s.data 0 s.data⟩

/-- Python `log.startswith("Program data:")`, as a character-level prefix
test (equivalent to the byte-level `String.startsWith` of core Lean, which
does not reduce inside the kernel). -/
def startsWithPData (l : String) : Bool := pdataPre.isPrefixOf l.data

/-- Python regex word character in the ASCII range: `\w` is letter, digit or
underscore (the Unicode extension of `\w` does not arise in the claims). -/
def isWordChar (c : Char) : Bool := c.isAlphanum || c = '_'

/-- One attempted match of the compiled pattern `Program (\w{32,}) invoke`
anchored at the head of `s`: the literal `Program `, a greedy run of word
characters of length at least 32, then the literal ` invoke`. Backtracking of
the greedy run cannot produce a match the maximal run does not: every
character the run could give back is a word character, while the next pattern
character is a space. -/
def matchInvokeAt (s : List Char) : Option (List Char) :=
  if "Program ".data.isPrefixOf s then
    if 32 ≤ ((s.drop 8).takeWhile isWordChar).length then
      if " invoke".data.isPrefixOf
          ((s.drop 8).drop ((s.drop 8).takeWhile isWordChar).length) then
        some ((s.drop 8).takeWhile isWordChar)
      else none
    else none
  else none

/-- Python `re.search`: try the pattern at every position left to right and
return the captured group of the first position that matches. -/
def searchAux : List Char → Option (List Char)
  | [] => none
  | c :: cs =>
    match matchInvokeAt (c :: cs) with
    | some run => some run
    | none => searchAux cs

/-- Search of `self.logpattern` in one log line, returning `match.group(1)`. -/
def logpatternSearch (s : String) : Option String :=
  (searchAux s.data).map (fun run => ⟨run⟩)

/-- Value of one character in the standard base64 alphabet, if any: the
ranges are the code points of `A`-`Z`, `a`-`z` and `0`-`9`. -/
def b64Val (c : Char) : Option Nat :=
  if 65 ≤ c.toNat ∧ c.toNat ≤ 90 then some (c.toNat - 65)
  else if 97 ≤ c.toNat ∧ c.toNat ≤ 122 then some (c.toNat - 71)
  else if 48 ≤ c.toNat ∧ c.toNat ≤ 57 then some (c.toNat - 48 + 52)
  else if c = '+' then some 62
  else if c = '/' then some 63
  else none

/-- CPython `binascii.a2b_base64` in its default non-strict mode, the decoder
behind `base64.b64decode`: state is the position inside the current quad `q`,
the pending bits `l`, the running pad count `p` and the output bytes. A
character outside the alphabet is discarded with no state change; `=` is
ignored before quad position 2 and otherwise counted, and a pad count that
completes a quad ends decoding with the bytes so far (any remaining input is
ignored); a data character resets the pad count. Exhausted input succeeds only
at quad position 0, the mid-quad positions being the padding errors. `none`
models a raised `binascii.Error`. -/
def a2bAux : List Char → Nat → Nat → Nat → List Nat → Option (List Nat)
  | [], q, _, _, out => if q = 0 then some out else none
  | c :: cs, q, l, p, out =>
    if c = '=' then
      if 2 ≤ q then
        if 4 ≤ q + (p + 1) then some out
        else a2bAux cs q l (p + 1) out
      else a2bAux cs q l p out
    else
      match b64Val c with
      | none => a2bAux cs q l p out
      | some d =>
        match q with
        | 0 => a2bAux cs 1 d 0 out
        | 1 => a2bAux cs 2 (d % 16) 0 (out ++ [l * 4 + d / 16])
        | 2 => a2bAux cs 3 (d % 4) 0 (out ++ [l * 16 + d / 4])
        | _ => a2bAux cs 0 0 0 (out ++ [l * 64 + d])

/-- Python `base64.b64decode` on a `str` argument: the argument must be pure
ASCII (`s.encode("ascii")` inside `b64decode` raises otherwise), and then the
lenient `binascii.a2b_base64` runs on it. `none` models a raised exception of
either kind. -/
def pythonB64Decode (s : String) : Option (List Nat) :=
  if s.data.all (fun c => c.toNat < 128) then a2bAux s.data 0 0 0 [] else none

/-- Lowercase hexadecimal digit for a value below 16. -/
def hexDigit (n : Nat) : Char := Char.ofNat (if n < 10 then 48 + n else 87 + n)

/-- The two lowercase hexadecimal digits of one byte. -/
def byteHex (b : Nat) : List Char := [hexDigit (b / 16), hexDigit (b % 16)]

/-- Python `bytes.hex()`: two lowercase hexadecimal digits per byte. -/
def hexEncode (bs : List Nat) : String := ⟨(bs.map byteHex).flatten⟩

/-- The dict comprehension in the initializer: strip every key. Duplicate
keys after stripping are resolved by `dictLookup` taking the last pair. -/
def mkProgramids (progids : List (String × String)) : List (String × String) :=
  progids.map (fun kv => (pyStrip kv.1, kv.2))

/-- Python dict lookup on an association list built left to right with
last-write-wins duplicate keys: the value of the last matching pair. -/
def dictLookup (d : List (String × String)) (k : String) : Option String :=
  (d.reverse.find? (fun kv => kv.1 == k)).map (fun kv => kv.2)

/-- The persisted record: the `OrderedDict` built in `handler`, with its
seven fields in source insertion order. The transaction signature is kept as
the JSON value extracted from the message, since Python stores a non-string
signature unchanged. -/
structure Entry where
  hexsize : Nat
  timestamp : String
  txid : Json
  programid : String
  dexname : String
  base64 : String
  hex : String

/-- One iteration of the payload scan over one log line: `none` when the line
does not start with `Program data:`, or when it does but base64 decoding of
the stripped remainder after the last occurrence of the marker raises (the
`except` branch of the source, which skips the line); otherwise the pair of
the stored encoded form and the decoded bytes. -/
def decodeLine (log : String) : Option (String × List Nat) :=
  if startsWithPData log then
    let b64data := pyStrip (pySplitTail log)
    match pythonB64Decode b64data with
    | some bytes => some (b64data, bytes)
    | none => none
  else none

/-- The set comprehension over the lines, collecting `match.group(1)` of each
line where the pattern search succeeds, modelled as the duplicate-free list
of the collected groups (a Python set has no specified iteration order, and
every claim below depends only on the underlying set or on counts). -/
def invokedids (logs : List String) : List String :=
  (logs.filterMap logpatternSearch).dedup

/-- Construction of one entry from the shared timestamp, the signature, one
recognized identifier with its registry name, and one decoded payload pair. -/
def mkEntry (ts : String) (txid : Json) (pid dexname : String)
    (pr : String × List Nat) : Entry :=
  { hexsize := pr.2.length, timestamp := ts, txid := txid, programid := pid,
    dexname := dexname, base64 := pr.1, hex := hexEncode pr.2 }

/-- The body of `handler` once the signature and the log lines are in hand:
build the invoked-identifier set, and for each identifier present in the
registry scan all lines for payload data, persisting one entry per payload
line that decodes. The timestamp is a parameter because the source reads the
clock once per notification, before this loop. -/
def handlerCore (reg : List (String × String)) (ts : String) (txid : Json)
    (logs : List String) : List Entry :=
  (invokedids logs).flatMap (fun pid =>
    match dictLookup reg pid with
    | none => []
    | some dexname =>
      (logs.filterMap decodeLine).map (mkEntry ts txid pid dexname))

/-- The static program table passed to `SolDexLogs` at the entry point. -/
def realProgramids : List (String × String) :=
  [("JSW99DKmxNyREQM14SQLDykeBvEUG63TeohrvmofEiw", "ApePro"),
   ("JUP4Fb2cqiRUcaTHdrPC8h2gNsA2ETXiPDD33WcGuJB", "JupiterAggV4"),
   ("JUP6LkbZbjS1jKKwapdHNy74zcZ3tLUZoi5QNyVTaV4", "JupiterAggV6"),
   ("DCA265Vj8a9CEuX1eb1LWRnDT7uK6q1xMipnNyatn23M", "JupiterDCA"),
   ("j1o2qRpjcyUwEvwtcfhEQefh773ZgjxcVRry7LDqg5X", "JupiterLimit"),
   ("6LtLpnUFNByNXLyCoK9wA2MykKAmQNZKBdY8s47dehDc", "Kamino"),
   ("EewxydAPCCVuNEyrVN68PuSYdQ7wKn27V9Gjeoi8dy3S", "LifinityV1"),
   ("2wT8Yq49kHgDzXuPxZSaeLaH1qbmGXtEyPy64bL7aD3c", "LifinityV2"),
   ("LBUZKhRxPF3XUpBCjp4YzTKgLccjZhTSDM9YuVaPwxo", "MeteoraDLMM"),
   ("Eo7WjKq67rjJQSZxS6z3YkapzY3eMj6Xy8X5EQVn5UaB", "MeteoraPools"),
   ("dbcij3LWUppWqq96dh6gJWwBifmcGfLSB5D4DuSMaqN", "MeteoraDBC"),
   ("cpamdpZCGKUy5JxQXB4dcpGPiikHawvSWAd6mEn1sGG", "MeteoraDAMM"),
   ("opnb2LAfJYbRMAHHvqjCwQxanZn7ReEHp1k81EohpZb", "OpenBook"),
   ("whirLbMiicVdio4qvUfM5KAg6Ct8VwpYzGff3uctyCc", "OrcaWhirlpool"),
   ("DjVE6JNiYqPL2QXyCUUh8rNjHrbz9hXHNYt99MQ59qw1", "OrcaSwapV1"),
   ("9W959DqEETiGZocYWCQPaJ6sBmUzgfxXfqGeTEdp3aQP", "OrcaSwapV2"),
   ("PhoeNiXZ8ByJGLkxNfZRnkUfjvmuYqLR89jjFHGqdXY", "Phoenix"),
   ("6EF8rrecthR5Dkzon8Nwu78hRvfCKubJ14M5uBEwF6P", "Pumpfun"),
   ("pAMMBay6oceH9fJKBRHGP5D4bD4sWpmSwMn52FMfXEA", "Pumpswap"),
   ("675kPX9MHTjS2zt1qfr1NYHuzeLXfQM9H24wFSUt1Mp8", "RaydiumLP"),
   ("5quBtoiQqxF9Jv6KYKctB59NT3gtJD2Y65kdnB1Uev3h", "RaydiumLPAMM"),
   ("CAMMCzo5YL8w4VFF8KVHrK22GGUsp5VTaW7grrKgrWqK", "RaydiumCL"),
   ("CPMMoo8L3F4NbTegBCKVNunggL7H1ZpdTHKxQB5qKP1C", "RaydiumCPMM"),
   ("LanMV9sAd7wArD4vJFi2qDdfnVhFxYSUg6eADduJ3uj", "RaydiumLaunchpad"),
   ("stkitrT1Uoy18Dk1fTrgPw8W6MVzoCfYoAFT4MLsmhq", "SanctumRouter"),
   ("5ocnV1qiCgaQR8Jb8xWnVbApfaygJ8tNoZfgPwsgx9kx", "SanctumController"),
   ("swapNyd8XiQwJ6ianp9snpu4brUqFxadzvHebnAXjJZ", "StableWidth"),
   ("swapFpHZwjELNnjvThjajtiVmkz3yPQEHjLtka2fwHW", "StableWeight")]

/-- The registry of the constructed collector, `self.programids`. -/
def realRegistry : List (String × String) := mkProgramids realProgramids

/-- Lookup of a key among the fields of a JSON object, last pair winning. -/
def jsonLookup (fields : List (String × Json)) (k : String) : Option Json :=
  (fields.reverse.find? (fun kv => kv.1 == k)).map (fun kv => kv.2)

/-- Python `x.get(k, default)`: `x` must be a dict (`AttributeError`
otherwise), and the default is returned when the key is absent. -/
def pyGetD (v : Json) (k : String) (dflt : Json) : Except String Json :=
  match v with
  | Json.obj fields => Except.ok ((jsonLookup fields k).getD dflt)
  | _ => Except.error "AttributeError"

/-- Python `x[k]` for a string key: a dict yields the value or raises
`KeyError`; any non-dict value raises `TypeError`. -/
def pyIndexStr (v : Json) (k : String) : Except String Json :=
  match v with
  | Json.obj fields =>
    match jsonLookup fields k with
    | some r => Except.ok r
    | none => Except.error "KeyError"
  | _ => Except.error "TypeError"

/-- Python iteration over the extracted `logs` value, as the source consumes
it (every element reaches `re.search`, which raises `TypeError` on a
non-string, already inside the set comprehension): a list must contain only
strings; iterating a string yields its one-character substrings; iterating a
dict yields its keys; other values are not iterable. -/
def pyIterLogs (v : Json) : Except String (List String) :=
  match v with
  | Json.arr xs =>
    if xs.all (fun x => match x with | Json.str _ => true | _ => false) then
      Except.ok (xs.filterMap (fun x =>
        match x with | Json.str s => some s | _ => none))
    else Except.error "TypeError"
  | Json.str s => Except.ok (s.data.map (fun c => String.mk [c]))
  | Json.obj fields => Except.ok (fields.map (fun kv => kv.1))
  | _ => Except.error "TypeError"

/-- Python comparison `message.get("method") != "logsNotification"` negated:
true exactly when the looked-up value is the string `logsNotification`. -/
def isLogsNotification (o : Option Json) : Bool :=
  match o with
  | some (Json.str m) => m == "logsNotification"
  | _ => false

/-- The full `handler` on one parsed message, with the capture timestamp
(`datetime.now(UTC).isoformat()`, read once per notification before the
entry loop) supplied as a parameter. `Except.error` models an exception
escaping `handler`, to be caught by the run loop; `Except.ok es` a normal
return that persisted the entries `es` in order. A message whose `method` is
absent or different is returned from silently; the deep field accesses raise
exactly where the source would. -/
def handler (reg : List (String × String)) (ts : String) (msg : Json) :
    Except String (List Entry) :=
  match msg with
  | Json.obj fields =>
    if isLogsNotification (jsonLookup fields "method") then
      match pyIndexStr (Json.obj fields) "params" with
      | Except.error e => Except.error e
      | Except.ok ps =>
        match pyIndexStr ps "result" with
        | Except.error e => Except.error e
        | Except.ok resp => do
          let value ← pyGetD resp "value" (Json.obj [])
          let txid ← pyGetD value "signature" (Json.str "")
          let logsJ ← pyGetD value "logs" (Json.arr [])
          let logs ← pyIterLogs logsJ
          Except.ok (handlerCore reg ts txid logs)
    else Except.ok []
  | _ => Except.error "AttributeError"

/-- Decimal digits of a positive number, most significant first. -/
def natReprAux : Nat → List Char → List Char
  | 0, acc => acc
  | n + 1, acc => natReprAux ((n + 1) / 10) (Char.ofNat (48 + (n + 1) % 10) :: acc)
termination_by n _ => n
decreasing_by
  exact Nat.div_lt_self (Nat.succ_pos n) (by omega)

/-- Python decimal representation of a non-negative integer. -/
def natRepr (n : Nat) : String := if n = 0 then "0" else ⟨natReprAux n []⟩

/-- Python decimal representation of an integer. -/
def intRepr (i : Int) : String :=
  if i < 0 then "-" ++ natRepr i.natAbs else natRepr i.natAbs

/-- Four lowercase hexadecimal digits of a value below 65536. -/
def fourHex (n : Nat) : List Char :=
  [hexDigit (n / 4096 % 16), hexDigit (n / 256 % 16),
   hexDigit (n / 16 % 16), hexDigit (n % 16)]

/-- Escape of one character inside a JSON string literal, as `json.dumps`
with its default `ensure_ascii=True` emits it: the two-character shortcuts,
`\uXXXX` with lowercase digits for the other control and all non-ASCII
characters (surrogate pairs above the basic plane), and the character itself
for printable ASCII. -/
def escapeChar (c : Char) : List Char :=
  if c = '\\' then ['\\', '\\']
  else if c = '"' then ['\\', '"']
  else if c = '\x08' then ['\\', 'b']
  else if c = '\x0c' then ['\\', 'f']
  else if c = '\n' then ['\\', 'n']
  else if c = '\r' then ['\\', 'r']
  else if c = '\t' then ['\\', 't']
  else if c.toNat < 32 ∨ 126 < c.toNat then
    if c.toNat < 65536 then '\\' :: 'u' :: fourHex c.toNat
    else
      ('\\' :: 'u' :: fourHex (55296 + (c.toNat - 65536) / 1024)) ++
      ('\\' :: 'u' :: fourHex (56320 + (c.toNat - 65536) % 1024))
  else [c]

/-- JSON string literal serialization of `json.dumps`. -/
def escapeString (s : String) : List Char :=
  '"' :: (s.data.map escapeChar).flatten ++ ['"']

mutual

/-- Serialization of a JSON value as `json.dumps` with default options emits
it: item separator comma-space, key separator colon-space. -/
def jsonSerialize : Json → List Char
  | Json.null => "null".data
  | Json.bool true => "true".data
  | Json.bool false => "false".data
  | Json.num i => (intRepr i).data
  | Json.str s => escapeString s
  | Json.arr xs => '[' :: serializeItems xs ++ [']']
  | Json.obj fields => '\x7b' :: serializeFields fields ++ ['\x7d']

/-- Comma-space separated serialization of array items. -/
def serializeItems : List Json → List Char
  | [] => []
  | [x] => jsonSerialize x
  | x :: y :: rest => jsonSerialize x ++ (',' :: ' ' :: serializeItems (y :: rest))

/-- Comma-space separated serialization of object fields. -/
def serializeFields : List (String × Json) → List Char
  | [] => []
  | [(k, v)] => escapeString k ++ (':' :: ' ' :: jsonSerialize v)
  | (k, v) :: kv :: rest =>
    escapeString k ++ (':' :: ' ' :: jsonSerialize v) ++
    (',' :: ' ' :: serializeFields (kv :: rest))

end

/-- Serialization of one entry: `json.dumps` of the `OrderedDict` with its
seven keys in insertion order. -/
def serializeEntry (e : Entry) : String :=
  ⟨jsonSerialize (Json.obj
    [("hexsize", Json.num e.hexsize), ("timestamp", Json.str e.timestamp),
     ("txid", e.txid), ("programid", Json.str e.programid),
     ("dexname", Json.str e.dexname), ("base64", Json.str e.base64),
     ("hex", Json.str e.hex)])⟩

/-- The persistence sink `savelog`, with the backing store as the list of
its lines: opening in append mode and writing `json.dumps(entry) + "\n"`
appends one record line, and an absent file is the empty store. -/
def savelog (store : List String) (e : Entry) : List String :=
  store ++ [serializeEntry e]

/-- One receive-loop input: `ws.recv()` delivering a frame whose `json.loads`
result is `msg` (paired with the timestamp the handler will read for it),
`json.loads` raising on the delivered frame, or `recv` itself raising (socket
failure, connection drop). -/
inductive RecvEvent where
  | recvOk (msg : Json) (ts : String) : RecvEvent
  | parseErr (e : String) : RecvEvent
  | recvErr (e : String) : RecvEvent

/-- Observable state of the run loop: the store lines and the number of
`[!] WebSocket error` diagnostics printed by the `except` arm. -/
structure RunState where
  store : List String
  diagnostics : Nat
deriving DecidableEq

/-- The empty initial state of the run loop. -/
def initRun : RunState := { store := [], diagnostics := 0 }

/-- One iteration of the `while True` body: every exception — from `recv`,
from `json.loads` or escaping `handler` — is caught by the single `except`
arm, which prints one diagnostic; a normal `handler` return has appended its
entries to the store. -/
def runStep (reg : List (String × String)) (st : RunState) :
    RecvEvent → RunState
  | RecvEvent.recvOk msg ts =>
    match handler reg ts msg with
    | Except.ok es => { st with store := es.foldl savelog st.store }
    | Except.error _ => { st with diagnostics := st.diagnostics + 1 }
  | RecvEvent.parseErr _ => { st with diagnostics := st.diagnostics + 1 }
  | RecvEvent.recvErr _ => { st with diagnostics := st.diagnostics + 1 }

/-- Result of a run over a finite prefix of receive events. -/
structure RunResult where
  connects : Nat
  subscribes : Nat
  final : RunState
deriving DecidableEq

/-- The `run` coroutine over a finite prefix of receive events: one
`websockets.connect` at entry, one `logsSubscribe` request, then the receive
loop. The loop body is inside the single `async with` block and contains no
connection or subscription call, so `connects` and `subscribes` are the
constant 1 whatever the events are. -/
def runModel (reg : List (String × String)) (events : List RecvEvent) :
    RunResult :=
  { connects := 1, subscribes := 1,
    final := events.foldl (runStep reg) initRun }

/-- Lowercase hexadecimal digit predicate, by code point range. -/
def isHexLower (c : Char) : Prop :=
  (48 ≤ c.toNat ∧ c.toNat ≤ 57) ∨ (97 ≤ c.toNat ∧ c.toNat ≤ 102)

instance (c : Char) : Decidable (isHexLower c) := by
  unfold isHexLower
  infer_instance

/-- Number of payload-bearing lines of a notification: the lines that start
with the `Program data:` marker. -/
def payloadLineCount (logs : List String) : Nat :=
  (logs.filter (fun l => startsWithPData l)).length

/-- The recognized identifiers of a notification: the invoked identifiers
that the registry contains. -/
def recognizedids (reg : List (String × String)) (logs : List String) :
    List String :=
  (invokedids logs).filter (fun pid => (dictLookup reg pid).isSome)

/-- Absence of the line-break character from a character list. -/
def noNL (l : List Char) : Prop := ∀ c ∈ l, c ≠ '\n'

instance (l : List Char) : Decidable (noNL l) := by
  unfold noNL
  infer_instance

/-! Concrete notification material used by witnesses and
counterexamples. -/

/-- Invoke line of the Jupiter V6 aggregator, as in the spec §8 scenario. -/
def jupLine : String :=
  "Program JUP6LkbZbjS1jKKwapdHNy74zcZ3tLUZoi5QNyVTaV4 invoke [1]"

/-- Invoke line of the Jupiter V4 aggregator. -/
def jup4Line : String :=
  "Program JUP4Fb2cqiRUcaTHdrPC8h2gNsA2ETXiPDD33WcGuJB invoke [1]"

/-- A payload line whose payload decodes to the three bytes 0, 1, 2. -/
def dataLine : String := "Program data: AAEC"

/-- A payload line whose payload raises on decode: two data characters and
no padding is an incorrect-padding error. -/
def badDataLine : String := "Program data: AA"

/-- The entry the §8 scenario notification produces, with timestamp `T`. -/
def sampleEntry : Entry :=
  { hexsize := 3, timestamp := "T", txid := Json.str "tx1",
    programid := "JUP6LkbZbjS1jKKwapdHNy74zcZ3tLUZoi5QNyVTaV4",
    dexname := "JupiterAggV6", base64 := "AAEC", hex := "000102" }

/-! Basic facts about the hexadecimal encoding and the base64 decoder. -/

theorem byteHex_length (b : Nat) : (byteHex b).length = 2 := rfl

theorem hexEncode_length (bs : List Nat) :
    (hexEncode bs).length = 2 * bs.length := by
  show ((bs.map byteHex).flatten).length = 2 * bs.length
  induction bs with
  | nil => rfl
  | cons b bs ih =>
    simp only [List.map_cons, List.flatten_cons, List.length_append, ih,
      byteHex_length, List.length_cons]
    omega

theorem hexDigit_isHexLower : ∀ n < 16, isHexLower (hexDigit n) := by decide

theorem hexEncode_chars (bs : List Nat) (hb : ∀ b ∈ bs, b < 256) :
    ∀ c ∈ (hexEncode bs).data, isHexLower c := by
  show ∀ c ∈ (bs.map byteHex).flatten, isHexLower c
  intro c hc
  rw [List.mem_flatten] at hc
  obtain ⟨l, hl, hcl⟩ := hc
  rw [List.mem_map] at hl
  obtain ⟨b, hbmem, rfl⟩ := hl
  have hb256 := hb b hbmem
  have h1 : b / 16 < 16 := by omega
  have h2 : b % 16 < 16 := by omega
  simp only [byteHex, List.mem_cons, List.not_mem_nil, or_false] at hcl
  rcases hcl with rfl | rfl
  · exact hexDigit_isHexLower _ h1
  · exact hexDigit_isHexLower _ h2

theorem b64Val_lt {c : Char} {d : Nat} (h : b64Val c = some d) : d < 64 := by
  unfold b64Val at h
  split_ifs at h <;> simp_all <;> omega

theorem a2bAux_bound :
    ∀ (cs : List Char) (q l p : Nat) (out res : List Nat),
      (∀ b ∈ out, b < 256) → q ≤ 3 →
      (q = 1 → l < 64) → (q = 2 → l < 16) → (q = 3 → l < 4) →
      a2bAux cs q l p out = some res → ∀ b ∈ res, b < 256 := by
  intro cs
  induction cs with
  | nil =>
    intro q l p out res hout _ _ _ _ heq
    simp only [a2bAux] at heq
    split_ifs at heq
    cases heq
    exact hout
  | cons c cs ih =>
    intro q l p out res hout hq3 h1 h2 h3 heq
    simp only [a2bAux] at heq
    split_ifs at heq with hpad hq2 hfin
    · cases heq
      exact hout
    · exact ih q l (p + 1) out res hout hq3 h1 h2 h3 heq
    · exact ih q l p out res hout hq3 h1 h2 h3 heq
    · revert heq
      cases hv : b64Val c with
      | none =>
        intro heq
        exact ih q l p out res hout hq3 h1 h2 h3 heq
      | some d =>
        have hd := b64Val_lt hv
        intro heq
        rcases q with _ | _ | _ | q
        · exact ih 1 d 0 out res hout (by omega) (fun _ => hd)
            (by omega) (by omega) heq
        · refine ih 2 (d % 16) 0 (out ++ [l * 4 + d / 16]) res ?_ (by omega)
            (by omega) (fun _ => by omega) (by omega) heq
          intro b hb
          rcases List.mem_append.mp hb with h | h
          · exact hout b h
          · have := h1 rfl
            simp only [List.mem_singleton] at h
            omega
        · refine ih 3 (d % 4) 0 (out ++ [l * 16 + d / 4]) res ?_ (by omega)
            (by omega) (by omega) (fun _ => by omega) heq
          intro b hb
          rcases List.mem_append.mp hb with h | h
          · exact hout b h
          · have := h2 rfl
            simp only [List.mem_singleton] at h
            omega
        · refine ih 0 0 0 (out ++ [l * 64 + d]) res ?_ (by omega)
            (by omega) (by omega) (by omega) heq
          intro b hb
          rcases List.mem_append.mp hb with h | h
          · exact hout b h
          · have hl4 : l < 4 := h3 (by omega)
            simp only [List.mem_singleton] at h
            omega

theorem pythonB64Decode_bound {s : String} {bs : List Nat}
    (h : pythonB64Decode s = some bs) : ∀ b ∈ bs, b < 256 := by
  unfold pythonB64Decode at h
  split_ifs at h
  exact a2bAux_bound s.data 0 0 0 [] bs (by simp) (by omega)
    (by omega) (by omega) (by omega) h

/-! Structural facts about `decodeLine` and `handlerCore`. -/

theorem decodeLine_none_of_no_marker {l : String}
    (h : startsWithPData l = false) : decodeLine l = none := by
  simp [decodeLine, h]

theorem decodeLine_inv {l : String} {pr : String × List Nat}
    (h : decodeLine l = some pr) :
    startsWithPData l = true ∧
      pr.1 = pyStrip (pySplitTail l) ∧ pythonB64Decode pr.1 = some pr.2 := by
  cases hs : startsWithPData l with
  | false =>
    rw [decodeLine_none_of_no_marker hs] at h
    cases h
  | true =>
    simp only [decodeLine, hs, if_true] at h
    cases hd : pythonB64Decode (pyStrip (pySplitTail l)) with
    | none =>
      rw [hd] at h
      cases h
    | some bytes =>
      rw [hd] at h
      have hpr := Option.some.inj h
      subst hpr
      exact ⟨rfl, rfl, hd⟩

theorem decodeLine_none_of_decode_fail {l : String}
    (h1 : startsWithPData l = true)
    (h2 : pythonB64Decode (pyStrip (pySplitTail l)) = none) :
    decodeLine l = none := by
  simp only [decodeLine, h1, if_true, h2]

theorem mem_handlerCore {reg : List (String × String)} {ts : String}
    {tx : Json} {logs : List String} {e : Entry}
    (h : e ∈ handlerCore reg ts tx logs) :
    ∃ pid r pr, pid ∈ invokedids logs ∧ dictLookup reg pid = some r ∧
      pr ∈ logs.filterMap decodeLine ∧ e = mkEntry ts tx pid r pr := by
  simp only [handlerCore, List.mem_flatMap] at h
  obtain ⟨pid, hpid, hmem⟩ := h
  revert hmem
  cases hr : dictLookup reg pid with
  | none => intro hmem; cases hmem
  | some r =>
    intro hmem
    simp only [List.mem_map] at hmem
    obtain ⟨pr, hpr, he⟩ := hmem
    exact ⟨pid, r, pr, hpid, hr, hpr, he.symm⟩

theorem filterMap_decodeLine_length {logs : List String}
    (h : ∀ l ∈ logs, startsWithPData l = true →
      (decodeLine l).isSome = true) :
    (logs.filterMap decodeLine).length = payloadLineCount logs := by
  induction logs with
  | nil => rfl
  | cons l logs ih =>
    have htail : ∀ x ∈ logs, startsWithPData x = true →
        (decodeLine x).isSome = true :=
      fun x hx => h x (List.mem_cons_of_mem l hx)
    cases hs : startsWithPData l with
    | false =>
      have hdl := decodeLine_none_of_no_marker hs
      simp only [payloadLineCount, List.filterMap_cons, hdl,
        List.filter_cons, hs]
      exact ih htail
    | true =>
      have hdl := h l (List.mem_cons_self l logs) hs
      cases hd : decodeLine l with
      | none => rw [hd] at hdl; cases hdl
      | some pr =>
        simp only [payloadLineCount, List.filterMap_cons, hd,
          List.filter_cons, hs, List.length_cons, if_true]
        rw [ih htail]
        rfl

/-- C2 (amended): for a notification whose payload-bearing lines all decode
successfully, the number of persisted entries is R × N, where R is the number
of recognized identifiers and N the number of payload-bearing lines; the
claimed count of exactly N holds only when R = 1, the source rescanning all
lines once per recognized identifier. -/
theorem c2_entry_count (reg : List (String × String)) (ts : String)
    (tx : Json) (logs : List String)
    (h : ∀ l ∈ logs, startsWithPData l = true →
      (decodeLine l).isSome = true) :
    (handlerCore reg ts tx logs).length =
      (recognizedids reg logs).length * payloadLineCount logs := by
  rw [← filterMap_decodeLine_length h]
  unfold handlerCore recognizedids
  generalize invokedids logs = ids
  induction ids with
  | nil => simp
  | cons pid ids ih =>
    cases hr : dictLookup reg pid with
    | none =>
      simp [List.flatMap_cons, List.filter_cons, hr, ih]
    | some r =>
      simp [List.flatMap_cons, List.filter_cons, hr, ih]
      ring

/-! Soundness of the pattern search: every extracted identifier is a long
word-character token framed by the invoke pattern inside the line. -/

theorem matchInvokeAt_inv {s run : List Char}
    (h : matchInvokeAt s = some run) :
    32 ≤ run.length ∧ (∀ c ∈ run, isWordChar c = true) ∧
      ("Program ".data ++ (run ++ " invoke".data)) <+: s := by
  unfold matchInvokeAt at h
  split_ifs at h with h1 h2 h3
  · injection h with h
    subst h
    refine ⟨h2, fun c hc => List.mem_takeWhile_imp hc, ?_⟩
    obtain ⟨t, ht⟩ := List.isPrefixOf_iff_prefix.mp h1
    have hdrop : s.drop 8 = t := by
      have := List.drop_left "Program ".data t
      rw [ht] at this
      exact this
    rw [hdrop] at h3 ⊢
    obtain ⟨u, hu⟩ := List.isPrefixOf_iff_prefix.mp h3
    have hsplit : t.takeWhile isWordChar ++
        t.drop (t.takeWhile isWordChar).length = t := by
      have hpre := List.takeWhile_prefix (l := t) isWordChar
      rw [List.prefix_iff_eq_take] at hpre
      calc t.takeWhile isWordChar ++ t.drop (t.takeWhile isWordChar).length
          = t.take (t.takeWhile isWordChar).length ++
              t.drop (t.takeWhile isWordChar).length := by rw [← hpre]
        _ = t := List.take_append_drop _ t
    refine ⟨u, ?_⟩
    conv_rhs => rw [← ht, ← hsplit, ← hu]
    simp only [List.append_assoc]

theorem searchAux_inv {s run : List Char} (h : searchAux s = some run) :
    32 ≤ run.length ∧ (∀ c ∈ run, isWordChar c = true) ∧
      ("Program ".data ++ (run ++ " invoke".data)) <:+: s := by
  induction s with
  | nil => cases h
  | cons c cs ih =>
    simp only [searchAux] at h
    cases hm : matchInvokeAt (c :: cs) with
    | some r =>
      rw [hm] at h
      injection h with h
      subst h
      obtain ⟨hlen, hword, hpre⟩ := matchInvokeAt_inv hm
      exact ⟨hlen, hword, hpre.isInfix⟩
    | none =>
      rw [hm] at h
      obtain ⟨hlen, hword, hinf⟩ := ih h
      exact ⟨hlen, hword, List.infix_cons hinf⟩

theorem logpatternSearch_inv {l t : String}
    (h : logpatternSearch l = some t) :
    32 ≤ t.length ∧ t.data.all isWordChar = true ∧
      ("Program " ++ t ++ " invoke").data <:+: l.data := by
  unfold logpatternSearch at h
  cases hm : searchAux l.data with
  | none =>
    rw [hm] at h
    cases h
  | some run =>
    rw [hm] at h
    injection h with h
    subst h
    obtain ⟨hlen, hword, hinf⟩ := searchAux_inv hm
    refine ⟨hlen, ?_, ?_⟩
    · exact List.all_eq_true.mpr hword
    · rw [String.data_append, String.data_append]
      simpa [List.append_assoc] using hinf

theorem mem_invokedids_iff {logs : List String} {t : String} :
    t ∈ invokedids logs ↔ ∃ l ∈ logs, logpatternSearch l = some t := by
  unfold invokedids
  rw [List.mem_dedup, List.mem_filterMap]

/-! Locality of a decode failure, and additivity of the store and of the
diagnostics over the run loop. -/

/-- C5: a payload line whose base64 decode raises is skipped on its own: the
entries of the notification are exactly those of the same notification
without that line (the line neither aborts the scan nor contributes an
entry), and `handlerCore` is total, so the failure never reaches the run
loop. The last hypothesis notes that the skipped line matches no invoke
pattern, so it cannot contribute an invoked identifier either. -/
theorem c5_decode_failure_local (reg : List (String × String)) (ts : String)
    (tx : Json) (pre post : List String) (bad : String)
    (h1 : startsWithPData bad = true)
    (h2 : pythonB64Decode (pyStrip (pySplitTail bad)) = none)
    (h3 : logpatternSearch bad = none) :
    handlerCore reg ts tx (pre ++ bad :: post) =
      handlerCore reg ts tx (pre ++ post) := by
  have hdl : decodeLine bad = none := decodeLine_none_of_decode_fail h1 h2
  have hids : invokedids (pre ++ bad :: post) = invokedids (pre ++ post) := by
    unfold invokedids
    rw [show bad :: post = [bad] ++ post from rfl, List.filterMap_append,
      List.filterMap_append, List.filterMap_append]
    simp [List.filterMap_cons, h3]
  have hdec : (pre ++ bad :: post).filterMap decodeLine =
      (pre ++ post).filterMap decodeLine := by
    rw [show bad :: post = [bad] ++ post from rfl, List.filterMap_append,
      List.filterMap_append, List.filterMap_append]
    simp [List.filterMap_cons, hdl]
  unfold handlerCore
  rw [hids, hdec]

theorem foldl_savelog (es : List Entry) :
    ∀ store : List String,
      es.foldl savelog store = store ++ es.map serializeEntry := by
  induction es with
  | nil =>
    intro store
    simp
  | cons e es ih =>
    intro store
    rw [List.foldl_cons, ih]
    simp [savelog]

theorem runStep_store_eq (reg : List (String × String)) (st : RunState)
    (ev : RecvEvent) :
    (runStep reg st ev).store =
      st.store ++ (runStep reg initRun ev).store := by
  cases ev with
  | recvOk msg ts =>
    simp only [runStep]
    cases handler reg ts msg with
    | ok es => simp [foldl_savelog, initRun]
    | error e => simp [initRun]
  | parseErr e => simp [runStep, initRun]
  | recvErr e => simp [runStep, initRun]

theorem runStep_diag_eq (reg : List (String × String)) (st : RunState)
    (ev : RecvEvent) :
    (runStep reg st ev).diagnostics =
      st.diagnostics + (runStep reg initRun ev).diagnostics := by
  cases ev with
  | recvOk msg ts =>
    simp only [runStep]
    cases handler reg ts msg with
    | ok es => simp [initRun]
    | error e => simp [initRun]
  | parseErr e => simp [runStep, initRun]
  | recvErr e => simp [runStep, initRun]

theorem foldl_runStep_store (reg : List (String × String)) :
    ∀ (events : List RecvEvent) (st : RunState),
      (events.foldl (runStep reg) st).store =
        st.store ++ (events.foldl (runStep reg) initRun).store := by
  intro events
  induction events with
  | nil =>
    intro st
    simp [initRun]
  | cons ev events ih =>
    intro st
    rw [List.foldl_cons, List.foldl_cons, ih (runStep reg st ev),
      ih (runStep reg initRun ev), runStep_store_eq reg st ev,
      List.append_assoc]

theorem foldl_runStep_diag (reg : List (String × String)) :
    ∀ (events : List RecvEvent) (st : RunState),
      (events.foldl (runStep reg) st).diagnostics =
        st.diagnostics + (events.foldl (runStep reg) initRun).diagnostics := by
  intro events
  induction events with
  | nil =>
    intro st
    simp [initRun]
  | cons ev events ih =>
    intro st
    rw [List.foldl_cons, List.foldl_cons, ih (runStep reg st ev),
      ih (runStep reg initRun ev), runStep_diag_eq reg st ev,
      Nat.add_assoc]

/-! Serialized records occupy exactly one line: no serialized entry contains
a line break, every control character being escaped. -/

theorem noNL_append {l1 l2 : List Char} (h1 : noNL l1) (h2 : noNL l2) :
    noNL (l1 ++ l2) := by
  intro c hc
  rcases List.mem_append.mp hc with h | h
  · exact h1 c h
  · exact h2 c h

theorem digitChar_bound : ∀ d < 10,
    48 ≤ (Char.ofNat (48 + d)).toNat ∧ (Char.ofNat (48 + d)).toNat ≤ 57 := by
  decide

theorem hexDigit_ne_nl : ∀ n < 16, hexDigit n ≠ '\n' := by decide

theorem fourHex_noNL (n : Nat) : noNL (fourHex n) := by
  intro c hc
  simp only [fourHex, List.mem_cons, List.not_mem_nil, or_false] at hc
  rcases hc with rfl | rfl | rfl | rfl
  · exact hexDigit_ne_nl _ (Nat.mod_lt _ (by omega))
  · exact hexDigit_ne_nl _ (Nat.mod_lt _ (by omega))
  · exact hexDigit_ne_nl _ (Nat.mod_lt _ (by omega))
  · exact hexDigit_ne_nl _ (Nat.mod_lt _ (by omega))

theorem escapeChar_noNL (c : Char) : noNL (escapeChar c) := by
  unfold escapeChar
  split_ifs with h1 h2 h3 h4 h5 h6 h7 h8 h9
  · decide
  · decide
  · decide
  · decide
  · decide
  · decide
  · decide
  · intro x hx
    simp only [List.mem_cons, List.not_mem_nil, or_false] at hx
    rcases hx with rfl | rfl | hx
    · decide
    · decide
    · exact fourHex_noNL _ x hx
  · intro x hx
    rcases List.mem_append.mp hx with hx | hx <;>
    · simp only [List.mem_cons, List.not_mem_nil, or_false] at hx
      rcases hx with rfl | rfl | hx
      · decide
      · decide
      · exact fourHex_noNL _ x hx
  · intro x hx
    simp only [List.mem_cons, List.not_mem_nil, or_false] at hx
    rcases hx with rfl
    exact h5

theorem escapeString_noNL (s : String) : noNL (escapeString s) := by
  unfold escapeString
  intro c hc
  rcases List.mem_cons.mp hc with rfl | hc
  · decide
  · rcases List.mem_append.mp hc with hc | hc
    · rw [List.mem_flatten] at hc
      obtain ⟨l, hl, hcl⟩ := hc
      rw [List.mem_map] at hl
      obtain ⟨x, _, rfl⟩ := hl
      exact escapeChar_noNL x c hcl
    · simp only [List.mem_singleton] at hc
      subst hc
      decide

theorem natReprAux_digits (n : Nat) : ∀ (acc : List Char),
    (∀ c ∈ acc, 48 ≤ c.toNat ∧ c.toNat ≤ 57) →
    ∀ c ∈ natReprAux n acc, 48 ≤ c.toNat ∧ c.toNat ≤ 57 := by
  induction n using Nat.strong_induction_on with
  | _ n ih =>
    intro acc hacc
    match n with
    | 0 =>
      rw [natReprAux]
      exact hacc
    | m + 1 =>
      rw [natReprAux]
      apply ih ((m + 1) / 10) (Nat.div_lt_self (Nat.succ_pos m) (by omega))
      intro c hc
      rcases List.mem_cons.mp hc with rfl | hc
      · exact digitChar_bound ((m + 1) % 10) (Nat.mod_lt _ (by omega))
      · exact hacc c hc

theorem natRepr_noNL (n : Nat) : noNL (natRepr n).data := by
  unfold natRepr
  split_ifs with h
  · decide
  · intro c hc
    have := natReprAux_digits n [] (by simp) c hc
    intro heq
    subst heq
    revert this
    decide

theorem intRepr_noNL (i : Int) : noNL (intRepr i).data := by
  unfold intRepr
  split_ifs with h
  · intro c hc
    rcases List.mem_append.mp hc with hc | hc
    · simp only [List.mem_singleton] at hc
      subst hc
      decide
    · exact natRepr_noNL _ c hc
  · exact natRepr_noNL _

mutual

theorem jsonSerialize_noNL : ∀ (j : Json), noNL (jsonSerialize j)
  | Json.null => by decide
  | Json.bool true => by decide
  | Json.bool false => by decide
  | Json.num i => by
    rw [jsonSerialize]
    exact intRepr_noNL i
  | Json.str s => by
    rw [jsonSerialize]
    exact escapeString_noNL s
  | Json.arr xs => by
    rw [jsonSerialize]
    intro c hc
    rcases List.mem_cons.mp hc with rfl | hc
    · decide
    · rcases List.mem_append.mp hc with hc | hc
      · exact serializeItems_noNL xs c hc
      · simp only [List.mem_singleton] at hc
        subst hc
        decide
  | Json.obj fields => by
    rw [jsonSerialize]
    intro c hc
    rcases List.mem_cons.mp hc with rfl | hc
    · decide
    · rcases List.mem_append.mp hc with hc | hc
      · exact serializeFields_noNL fields c hc
      · simp only [List.mem_singleton] at hc
        subst hc
        decide

theorem serializeItems_noNL : ∀ (xs : List Json), noNL (serializeItems xs)
  | [] => by
    rw [serializeItems]
    intro c hc
    cases hc
  | [x] => by
    rw [serializeItems]
    exact jsonSerialize_noNL x
  | x :: y :: rest => by
    rw [serializeItems]
    apply noNL_append (jsonSerialize_noNL x)
    intro c hc
    rcases List.mem_cons.mp hc with rfl | hc
    · decide
    · rcases List.mem_cons.mp hc with rfl | hc
      · decide
      · exact serializeItems_noNL (y :: rest) c hc

theorem serializeFields_noNL : ∀ (fs : List (String × Json)),
    noNL (serializeFields fs)
  | [] => by
    rw [serializeFields]
    intro c hc
    cases hc
  | [(k, v)] => by
    rw [serializeFields]
    apply noNL_append (escapeString_noNL k)
    intro c hc
    rcases List.mem_cons.mp hc with rfl | hc
    · decide
    · rcases List.mem_cons.mp hc with rfl | hc
      · decide
      · exact jsonSerialize_noNL v c hc
  | (k, v) :: kv :: rest => by
    rw [serializeFields]
    apply noNL_append
    · apply noNL_append (escapeString_noNL k)
      intro c hc
      rcases List.mem_cons.mp hc with rfl | hc
      · decide
      · rcases List.mem_cons.mp hc with rfl | hc
        · decide
        · exact jsonSerialize_noNL v c hc
    · intro c hc
      rcases List.mem_cons.mp hc with rfl | hc
      · decide
      · rcases List.mem_cons.mp hc with rfl | hc
        · decide
        · exact serializeFields_noNL (kv :: rest) c hc

end

theorem serializeEntry_noNL (e : Entry) : noNL (serializeEntry e).data :=
  jsonSerialize_noNL _

/-! The lenient decoder ignores characters outside the alphabet. -/

theorem a2bAux_filter : ∀ (cs : List Char) (q l p : Nat) (out : List Nat),
    a2bAux cs q l p out =
      a2bAux (cs.filter (fun c => (b64Val c).isSome || c == '=')) q l p out := by
  intro cs
  induction cs with
  | nil =>
    intro q l p out
    rfl
  | cons c cs ih =>
    intro q l p out
    by_cases hpad : c = '='
    · subst hpad
      rw [List.filter_cons_of_pos (by simp)]
      simp only [a2bAux, if_true]
      split_ifs
      · rfl
      · exact ih _ _ _ _
      · exact ih _ _ _ _
    · cases hv : b64Val c with
      | some d =>
        rw [List.filter_cons_of_pos (by simp [hv])]
        simp only [a2bAux, if_neg hpad, hv]
        rcases q with _ | _ | _ | q
        · exact ih _ _ _ _
        · exact ih _ _ _ _
        · exact ih _ _ _ _
        · exact ih _ _ _ _
      | none =>
        rw [List.filter_cons_of_neg (by simp [hv, hpad])]
        simp only [a2bAux, if_neg hpad, hv]
        exact ih _ _ _ _

theorem pythonB64Decode_filter (s : String)
    (h : s.data.all (fun c => c.toNat < 128) = true) :
    pythonB64Decode s =
      pythonB64Decode
        ⟨s.data.filter (fun c => (b64Val c).isSome || c == '=')⟩ := by
  have h2 : (s.data.filter (fun c => (b64Val c).isSome || c == '=')).all
      (fun c => c.toNat < 128) = true := by
    rw [List.all_eq_true] at h ⊢
    intro c hc
    exact h c (List.mem_of_mem_filter hc)
  show (if s.data.all (fun c => c.toNat < 128) = true
      then a2bAux s.data 0 0 0 [] else none) =
    (if (s.data.filter (fun c => (b64Val c).isSome || c == '=')).all
        (fun c => c.toNat < 128) = true
      then a2bAux (s.data.filter
        (fun c => (b64Val c).isSome || c == '=')) 0 0 0 [] else none)
  rw [if_pos h, if_pos h2]
  exact a2bAux_filter s.data 0 0 0 []

theorem runState_ext {a b : RunState} (h1 : a.store = b.store)
    (h2 : a.diagnostics = b.diagnostics) : a = b := by
  cases a
  cases b
  cases h1
  cases h2
  rfl

theorem foldl_runStep_insert_err (reg : List (String × String))
    (pre post : List RecvEvent) (msg : String) :
    List.foldl (runStep reg) initRun (pre ++ RecvEvent.recvErr msg :: post) =
      { store := (List.foldl (runStep reg) initRun (pre ++ post)).store,
        diagnostics :=
          (List.foldl (runStep reg) initRun (pre ++ post)).diagnostics + 1 } := by
  rw [List.foldl_append, List.foldl_cons, List.foldl_append]
  have hstep : runStep reg (List.foldl (runStep reg) initRun pre)
      (RecvEvent.recvErr msg) =
      { store := (List.foldl (runStep reg) initRun pre).store,
        diagnostics :=
          (List.foldl (runStep reg) initRun pre).diagnostics + 1 } := rfl
  rw [hstep]
  apply runState_ext
  · rw [foldl_runStep_store reg post, foldl_runStep_store reg post
      (List.foldl (runStep reg) initRun pre)]
  · rw [foldl_runStep_diag reg post, foldl_runStep_diag reg post
      (List.foldl (runStep reg) initRun pre)]
    dsimp only
    omega

/-- C1 (amended): a receive error inside the run loop is caught there: it
adds exactly one diagnostic, leaves the store exactly as the same trace
without the error leaves it (so every later event is still processed and no
entry is lost or added by the failure), and it does not cause a reconnect or
a new subscription — the connection count and the subscription count stay at
the single connect and subscribe performed at entry to `run`. -/
theorem c1_error_caught_no_reconnect (reg : List (String × String))
    (pre post : List RecvEvent) (msg : String) :
    (runModel reg (pre ++ RecvEvent.recvErr msg :: post)).final.store =
      (runModel reg (pre ++ post)).final.store ∧
    (runModel reg (pre ++ RecvEvent.recvErr msg :: post)).final.diagnostics =
      (runModel reg (pre ++ post)).final.diagnostics + 1 ∧
    (runModel reg (pre ++ RecvEvent.recvErr msg :: post)).connects = 1 ∧
    (runModel reg (pre ++ RecvEvent.recvErr msg :: post)).subscribes = 1 := by
  refine ⟨?_, ?_, rfl, rfl⟩
  · show (List.foldl (runStep reg) initRun
        (pre ++ RecvEvent.recvErr msg :: post)).store = _
    rw [foldl_runStep_insert_err]
    rfl
  · show (List.foldl (runStep reg) initRun
        (pre ++ RecvEvent.recvErr msg :: post)).diagnostics = _
    rw [foldl_runStep_insert_err]
    rfl

/-- C1 counterexample: after a socket failure the manager does not
re-establish the connection and does not re-subscribe — the connection and
subscription counts remain the single one made at entry, where the claimed
`Disconnected → Connecting` retry would require a second of each. -/
theorem c1_no_reconnect_counterexample :
    (runModel realRegistry [RecvEvent.recvErr "socket failure"]).connects
      = 1 ∧
    (runModel realRegistry [RecvEvent.recvErr "socket failure"]).subscribes
      = 1 ∧
    (runModel realRegistry
      [RecvEvent.recvErr "socket failure"]).final.diagnostics = 1 :=
  ⟨rfl, rfl, rfl⟩

/-- C5 witness: the locality theorem applied to a notification holding one
recognized invoke line, one payload line with an incorrect-padding payload,
and one payload line that decodes. -/
theorem c5_decode_failure_local_witness :
    startsWithPData badDataLine = true ∧
    pythonB64Decode (pyStrip (pySplitTail badDataLine)) = none ∧
    logpatternSearch badDataLine = none ∧
    handlerCore realRegistry "T" (Json.str "tx1")
      ([jupLine] ++ badDataLine :: [dataLine]) =
      handlerCore realRegistry "T" (Json.str "tx1") ([jupLine] ++ [dataLine]) :=
  ⟨rfl, rfl, rfl,
   c5_decode_failure_local realRegistry "T" (Json.str "tx1") [jupLine]
     [dataLine] badDataLine rfl rfl rfl⟩

/-- C2 counterexample: a notification with one payload-bearing line that
decodes and two recognized identifiers produces two entries — one per
recognized identifier — not the one entry the claim asks for. -/
theorem c2_two_recognized_counterexample :
    payloadLineCount [jupLine, jup4Line, dataLine] = 1 ∧
    (∀ l ∈ [jupLine, jup4Line, dataLine],
      startsWithPData l = true → (decodeLine l).isSome = true) ∧
    (recognizedids realRegistry [jupLine, jup4Line, dataLine]).length = 2 ∧
    (handlerCore realRegistry "T" (Json.str "tx1")
      [jupLine, jup4Line, dataLine]).length = 2 ∧
    (handlerCore realRegistry "T" (Json.str "tx1")
      [jupLine, jup4Line, dataLine]).length ≠ 1 := by
  refine ⟨rfl, by decide, rfl, rfl, by decide⟩

/-- C2 witness: the amended count theorem applied to the two-identifier
notification above. -/
theorem c2_entry_count_witness :
    (handlerCore realRegistry "T" (Json.str "tx1")
      [jupLine, jup4Line, dataLine]).length =
      (recognizedids realRegistry [jupLine, jup4Line, dataLine]).length *
        payloadLineCount [jupLine, jup4Line, dataLine] :=
  c2_entry_count realRegistry "T" (Json.str "tx1")
    [jupLine, jup4Line, dataLine] (by decide)

/-- C3 (amended): an inbound message that is a JSON object whose `method`
entry is absent or is not the string `logsNotification` is ignored silently:
`handler` returns normally with no entry persisted and no exception. A
message that is not an object at all raises instead (see the
counterexample), so the claim holds for object-shaped messages. -/
theorem c3_silent_ignore (reg : List (String × String)) (ts : String)
    (fields : List (String × Json))
    (h : isLogsNotification (jsonLookup fields "method") = false) :
    handler reg ts (Json.obj fields) = Except.ok [] := by
  simp [handler, h]

/-- C3 witness: the §8 scenario message with no `method` key is silently
ignored. -/
theorem c3_silent_ignore_witness :
    isLogsNotification (jsonLookup [("jsonrpc", Json.str "2.0")] "method")
      = false ∧
    handler realRegistry "T" (Json.obj [("jsonrpc", Json.str "2.0")]) =
      Except.ok [] :=
  ⟨rfl, c3_silent_ignore realRegistry "T" _ rfl⟩

/-- C3 counterexample: an inbound message whose parsed form is not an object
— here an empty JSON array — has a shape that does not match the
notification envelope, yet its handling is not silent: the attribute access
`message.get` raises, and the exception escapes `handler` to the run loop,
which logs it as a transport error. -/
theorem c3_non_object_counterexample :
    handler realRegistry "T" (Json.arr []) =
      Except.error "AttributeError" ∧
    handler realRegistry "T" (Json.str "ping") =
      Except.error "AttributeError" :=
  ⟨rfl, rfl⟩

/-- C4 (amended): every persisted entry stores, in its encoded field, the
whitespace-stripped remainder of some payload-bearing line after the last
occurrence of `Program data:` (the source takes `split(...)[-1]`, not the
remainder after the leading prefix), preserved verbatim; the decoded bytes
are the Python base64 decoding of that stored field, and the hex field is
their lowercase hexadecimal form. -/
theorem c4_payload_fields (reg : List (String × String)) (ts : String)
    (tx : Json) (logs : List String) (e : Entry)
    (he : e ∈ handlerCore reg ts tx logs) :
    ∃ l ∈ logs, startsWithPData l = true ∧
      e.base64 = pyStrip (pySplitTail l) ∧
      ∃ bs, pythonB64Decode e.base64 = some bs ∧ e.hex = hexEncode bs := by
  obtain ⟨pid, r, pr, hpid, hr, hpr, rfl⟩ := mem_handlerCore he
  rw [List.mem_filterMap] at hpr
  obtain ⟨l, hl, hdl⟩ := hpr
  obtain ⟨hs, h1, h2⟩ := decodeLine_inv hdl
  exact ⟨l, hl, hs, h1, pr.2, h2, rfl⟩

/-- C4 witness: the amended field theorem applied to the §8 scenario entry. -/
theorem c4_payload_fields_witness :
    ∃ l ∈ [jupLine, dataLine], startsWithPData l = true ∧
      sampleEntry.base64 = pyStrip (pySplitTail l) ∧
      ∃ bs, pythonB64Decode sampleEntry.base64 = some bs ∧
        sampleEntry.hex = hexEncode bs :=
  c4_payload_fields realRegistry "T" (Json.str "tx1") [jupLine, dataLine]
    sampleEntry (List.Mem.head _)

/-- C4 counterexample: on a line with two occurrences of the marker, the
stored encoded field is the stripped remainder after the last occurrence,
not the stripped remainder after the leading prefix as claimed. -/
theorem c4_last_occurrence_counterexample :
    startsWithPData "Program data: Program data: AAEC" = true ∧
    pyStrip ⟨("Program data: Program data: AAEC" : String).data.drop 13⟩ =
      "Program data: AAEC" ∧
    (handlerCore realRegistry "T" (Json.str "tx")
      [jupLine, "Program data: Program data: AAEC"]).map
        (fun e => e.base64) = ["AAEC"] ∧
    ("AAEC" : String) ≠ "Program data: AAEC" := by
  refine ⟨rfl, rfl, rfl, by decide⟩

/-- C6: every persisted entry has a hex field that is the lowercase
hexadecimal form of the decoded payload bytes, a byte-length field equal to
the number of decoded bytes (a natural number, hence never negative), and a
hex field of character length exactly twice the byte-length field. -/
theorem c6_entry_invariant (reg : List (String × String)) (ts : String)
    (tx : Json) (logs : List String) (e : Entry)
    (he : e ∈ handlerCore reg ts tx logs) :
    ∃ bs, pythonB64Decode e.base64 = some bs ∧
      e.hexsize = bs.length ∧ e.hex = hexEncode bs ∧
      e.hex.length = 2 * e.hexsize ∧
      ∀ c ∈ e.hex.data, isHexLower c := by
  obtain ⟨pid, r, pr, hpid, hr, hpr, rfl⟩ := mem_handlerCore he
  rw [List.mem_filterMap] at hpr
  obtain ⟨l, hl, hdl⟩ := hpr
  obtain ⟨_, h1, h2⟩ := decodeLine_inv hdl
  refine ⟨pr.2, h2, rfl, rfl, ?_, ?_⟩
  · exact hexEncode_length pr.2
  · exact hexEncode_chars pr.2 (pythonB64Decode_bound h2)

/-- C6 witness: the invariant theorem applied to the §8 scenario entry. -/
theorem c6_entry_invariant_witness :
    ∃ bs, pythonB64Decode sampleEntry.base64 = some bs ∧
      sampleEntry.hexsize = bs.length ∧ sampleEntry.hex = hexEncode bs ∧
      sampleEntry.hex.length = 2 * sampleEntry.hexsize ∧
      ∀ c ∈ sampleEntry.hex.data, isHexLower c :=
  c6_entry_invariant realRegistry "T" (Json.str "tx1") [jupLine, dataLine]
    sampleEntry (List.Mem.head _)

/-- C7 (amended): every extracted identifier is a token of at least 32 word
characters — alphanumeric or underscore, the regex class `\w` — framed as
`Program <identifier> invoke` inside some line of the notification;
identifiers collapse into a duplicate-free set; an entry is produced only
for an extracted identifier present in the registry, and a notification
whose extracted identifiers are all absent from the registry produces no
entry. -/
theorem c7_matcher_sound :
    (∀ (logs : List String) (t : String), t ∈ invokedids logs →
      32 ≤ t.length ∧ t.data.all isWordChar = true ∧
      ∃ l ∈ logs, ("Program " ++ t ++ " invoke").data <:+: l.data) ∧
    (∀ logs : List String, (invokedids logs).Nodup) ∧
    (∀ (reg : List (String × String)) (ts : String) (tx : Json)
      (logs : List String) (e : Entry), e ∈ handlerCore reg ts tx logs →
      e.programid ∈ invokedids logs ∧
        (dictLookup reg e.programid).isSome = true) ∧
    (∀ (reg : List (String × String)) (ts : String) (tx : Json)
      (logs : List String),
      (∀ t ∈ invokedids logs, dictLookup reg t = none) →
      handlerCore reg ts tx logs = []) := by
  refine ⟨?_, ?_, ?_, ?_⟩
  · intro logs t ht
    obtain ⟨l, hl, hs⟩ := mem_invokedids_iff.mp ht
    obtain ⟨h1, h2, h3⟩ := logpatternSearch_inv hs
    exact ⟨h1, h2, l, hl, h3⟩
  · intro logs
    exact List.nodup_dedup _
  · intro reg ts tx logs e he
    obtain ⟨pid, r, pr, hpid, hr, hpr, rfl⟩ := mem_handlerCore he
    refine ⟨hpid, ?_⟩
    show (dictLookup reg pid).isSome = true
    rw [hr]
    rfl
  · intro reg ts tx logs h
    unfold handlerCore
    rw [List.flatMap_eq_nil_iff]
    intro pid hpid
    rw [h pid hpid]

/-- C7 witness: the soundness conjunct applied to the §8 scenario line, and
the zero-entry conjunct applied with the empty registry. -/
theorem c7_matcher_sound_witness :
    (32 ≤ ("JUP6LkbZbjS1jKKwapdHNy74zcZ3tLUZoi5QNyVTaV4" : String).length ∧
      ("JUP6LkbZbjS1jKKwapdHNy74zcZ3tLUZoi5QNyVTaV4" :
        String).data.all isWordChar = true ∧
      ∃ l ∈ [jupLine],
        ("Program " ++ "JUP6LkbZbjS1jKKwapdHNy74zcZ3tLUZoi5QNyVTaV4" ++
          " invoke").data <:+: l.data) ∧
    handlerCore [] "T" Json.null [jupLine] = [] :=
  ⟨c7_matcher_sound.1 [jupLine] _ (by decide),
   c7_matcher_sound.2.2.2 [] "T" Json.null [jupLine] (fun t _ => rfl)⟩

/-- C7 counterexample: a line whose candidate token consists of 32
underscores is matched by the source pattern (`\w` includes the underscore),
so the extracted set contains a token that is not made of alphanumeric
characters, against the claimed characterization. -/
theorem c7_underscore_counterexample :
    invokedids ["Program ________________________________ invoke"] =
      ["________________________________"] ∧
    ("________________________________" : String).data.all
      (fun c => c.isAlphanum) = false :=
  ⟨rfl, rfl⟩

/-- C8: the capture timestamp is read once per notification, before the
entry loop, and every entry derived from the notification carries exactly
that value. -/
theorem c8_shared_timestamp (reg : List (String × String)) (ts : String)
    (tx : Json) (logs : List String) :
    ∀ e ∈ handlerCore reg ts tx logs, e.timestamp = ts := by
  intro e he
  obtain ⟨pid, r, pr, _, _, _, rfl⟩ := mem_handlerCore he
  rfl

/-- C8 witness: the timestamp theorem applied to the §8 scenario entry. -/
theorem c8_shared_timestamp_witness : sampleEntry.timestamp = "T" :=
  c8_shared_timestamp realRegistry "T" (Json.str "tx1") [jupLine, dataLine]
    sampleEntry (List.Mem.head _)

/-- C9: appending entries through `savelog` leaves every prior line
unchanged and in order — the resulting store is the old store followed by
one serialized record per entry, in order, so K appends add exactly K lines
— and every serialized record is free of line breaks, hence occupies exactly
one line of the backing file. -/
theorem c9_append_only_sink (store : List String) (es : List Entry) :
    es.foldl savelog store = store ++ es.map serializeEntry ∧
    (es.foldl savelog store).length = store.length + es.length ∧
    (es.foldl savelog store).take store.length = store ∧
    ∀ e : Entry, (serializeEntry e).data.all (fun c => c != '\n') = true := by
  refine ⟨foldl_savelog es store, ?_, ?_, ?_⟩
  · rw [foldl_savelog]
    simp
  · rw [foldl_savelog]
    exact List.take_left store (es.map serializeEntry)
  · intro e
    rw [List.all_eq_true]
    intro c hc
    exact bne_iff_ne.mpr (serializeEntry_noNL e c hc)

/-- C10: the decode step is lenient — on an ASCII argument, characters
outside the base64 alphabet other than the padding sign are discarded before
decoding, so such characters do not by themselves make a line skip; the skip
branch is taken exactly when the decoder raises; and a payload whose
remainder consists only of non-alphabet characters decodes to zero bytes,
yielding an entry with byte length 0 and empty hex. -/
theorem c10_lenient_decode :
    (∀ s : String, s.data.all (fun c => c.toNat < 128) = true →
      pythonB64Decode s =
        pythonB64Decode
          ⟨s.data.filter (fun c => (b64Val c).isSome || c == '=')⟩) ∧
    (∀ l : String, startsWithPData l = true →
      decodeLine l = none →
      pythonB64Decode (pyStrip (pySplitTail l)) = none) ∧
    handlerCore realRegistry "T" (Json.str "tx")
      [jupLine, "Program data: ???"] =
      [{ hexsize := 0, timestamp := "T", txid := Json.str "tx",
         programid := "JUP6LkbZbjS1jKKwapdHNy74zcZ3tLUZoi5QNyVTaV4",
         dexname := "JupiterAggV6", base64 := "???", hex := "" }] := by
  refine ⟨pythonB64Decode_filter, ?_, rfl⟩
  intro l hs hn
  cases hd : pythonB64Decode (pyStrip (pySplitTail l)) with
  | none => rfl
  | some bs =>
    have hsome : decodeLine l = some (pyStrip (pySplitTail l), bs) := by
      simp only [decodeLine, hs, if_true, hd]
    rw [hsome] at hn
    cases hn

/-- C10 witness: filter invariance applied to a concrete ASCII string, and
the skip-exactly-on-raise conjunct applied to the incorrect-padding line. -/
theorem c10_lenient_decode_witness :
    pythonB64Decode "ab=!" =
      pythonB64Decode
        ⟨"ab=!".data.filter (fun c => (b64Val c).isSome || c == '=')⟩ ∧
    pythonB64Decode (pyStrip (pySplitTail badDataLine)) = none :=
  ⟨c10_lenient_decode.1 "ab=!" (by decide),
   c10_lenient_decode.2.1 badDataLine rfl rfl⟩

end SolDexLogs
